/-
Verification of the homie_orchestrator core components against their
natural-language specification.

The Python sources under src/orchestrator/core are shallowly embedded:
  * `ContainerManager` (container_manager.py) becomes a pure state machine
    over `CMState` (the docker runtime's container table plus the manager's
    in-memory registry `_containers`).  Each runtime call that can fail in
    Python (raising `docker.errors.DockerException`, caught by the manager)
    is driven by an explicit fault-injection record `Faults`; every runtime
    API call is also recorded in an event trace so that call-order claims
    can be stated.
  * `HealthMonitor` (health_monitor.py) becomes pure functions over the
    verdict map `health_checks`.
  * `Scheduler` (scheduler.py) becomes pure functions over the task map;
    the external cron engine (croniter / apscheduler, an external
    collaborator per the spec) is a parameter `CronEngine`.
  * `BackupManager` (backup_manager.py) becomes a function over a small
    filesystem model (the set of paths present), with fault injection for
    each backup step and an event trace recording filesystem operations.

Machine times (`datetime.now()` etc.) are modelled as integers passed in by
the caller.  Log output is ignored except where a logged string is the
function's return value (get_container_logs).
-/
import Mathlib

namespace Orchestrator

/-! ### Association-list maps

Python `dict`s keyed by strings (the registry `_containers`, the verdict map
`health_checks`, the task map `tasks`) are modelled as association lists.
`setA` is `d[k] = v` (overwrite), `eraseA` is `del d[k]`. -/

def lookupA {α : Type} (m : List (String × α)) (k : String) : Option α :=
  match m with
  | [] => none
  | (k', v) :: rest => if k' = k then some v else lookupA rest k

def setA {α : Type} (m : List (String × α)) (k : String) (v : α) :
    List (String × α) :=
  (k, v) :: m.filter (fun p => p.1 ≠ k)

def eraseA {α : Type} (m : List (String × α)) (k : String) :
    List (String × α) :=
  m.filter (fun p => p.1 ≠ k)

/-- Keys of an association-list map are pairwise distinct. -/
def keysNodup {α : Type} (m : List (String × α)) : Prop :=
  (m.map (fun p => p.1)).Nodup

/-! ### Container manager: data model

`DContainer` is one container as the docker daemon sees it.  The `logs` and
`stats` fields stand for the payloads `container.logs()` decodes and
`container.stats(stream=False)` returns.  A `Handle` is a docker-py
`Container` object held in the manager's registry `_containers`: it knows
the container name and carries a cached copy of the status (docker-py
objects only refresh their cached attrs on `reload()`;
`remove_container` reads `container.status` from this cache without
reloading). -/

structure DContainer where
  name : String
  status : String
  image : String
  logsText : String
  statsBlob : Nat
  deriving DecidableEq, Repr

structure Handle where
  cname : String
  cachedStatus : String
  deriving DecidableEq, Repr

structure CMState where
  runtime : List DContainer
  registry : List (String × Handle)
  deriving DecidableEq, Repr

/-- Fault injection for the docker runtime: a `true` field makes the
corresponding runtime API call raise `DockerException` (which the manager
catches). -/
structure Faults where
  stopFails : Bool
  removeFails : Bool
  createFails : Bool
  connectFails : Bool
  startFails : Bool
  pullFails : Bool
  reloadFails : Bool
  logsFails : Bool
  statsFails : Bool
  deriving DecidableEq, Repr

def noFaults : Faults :=
  ⟨false, false, false, false, false, false, false, false, false⟩

/-- One docker runtime API call, for the event traces. -/
inductive DEvent where
  | stopCall (cname : String) (timeout : Nat)
  | removeCall (cname : String) (force : Bool)
  | createCall (cname : String) (image : String)
  | connectCall (cname : String)
  | startCall (cname : String)
  | pullCall (image : String)
  | reloadCall (cname : String)
  deriving DecidableEq, Repr

/-- Result of one manager operation: the returned boolean, the new state,
and the runtime calls made. -/
structure CMResult where
  ok : Bool
  st : CMState
  tr : List DEvent
  deriving DecidableEq, Repr

def findC (rt : List DContainer) (n : String) : Option DContainer :=
  match rt with
  | [] => none
  | c :: rest => if c.name = n then some c else findC rest n

def setStatusC (rt : List DContainer) (n : String) (s : String) :
    List DContainer :=
  rt.map (fun c => if c.name = n then { c with status := s } else c)

def removeC (rt : List DContainer) (n : String) : List DContainer :=
  rt.filter (fun c => c.name ≠ n)

/-- Only the `image` field of `ServiceConfig` bears on the claims under
verification; the remaining launch-spec fields (environment, ports,
volumes, limits, …) from config.py are carried opaquely by
`_prepare_container_config` and are elided here. -/
structure ServiceConfig where
  image : String
  deriving DecidableEq, Repr

/-! ### Container manager: operations (container_manager.py) -/

/-- ContainerManager.stop_container (lines 135-149): registry lookup, then
`container.stop(timeout=timeout)`; `DockerException` (injected fault, or
404 because the container is gone from the runtime) is caught and `False`
returned.  A successful stop leaves the runtime container `exited`. -/
def stop_container (f : Faults) (st : CMState) (s : String)
    (timeout : Nat) : CMResult :=
  match lookupA st.registry s with
  | none => ⟨false, st, []⟩
  | some h =>
    if f.stopFails then ⟨false, st, [.stopCall h.cname timeout]⟩
    else match findC st.runtime h.cname with
      | none => ⟨false, st, [.stopCall h.cname timeout]⟩
      | some _ =>
        ⟨true, { st with runtime := setStatusC st.runtime h.cname "exited" },
          [.stopCall h.cname timeout]⟩

/-- ContainerManager.start_container (lines 119-133): registry lookup, then
`container.start()`; a successful start leaves the container `running`. -/
def start_container (f : Faults) (st : CMState) (s : String) : CMResult :=
  match lookupA st.registry s with
  | none => ⟨false, st, []⟩
  | some h =>
    if f.startFails then ⟨false, st, [.startCall h.cname]⟩
    else match findC st.runtime h.cname with
      | none => ⟨false, st, [.startCall h.cname]⟩
      | some _ =>
        ⟨true, { st with runtime := setStatusC st.runtime h.cname "running" },
          [.startCall h.cname]⟩

/-- ContainerManager.remove_container (lines 167-186).  The stop-first check
reads the handle's cached `container.status` (no reload); the stop result is
ignored.  `container.remove(force=force)` raises (hence returns `False` with
the registry untouched) if the runtime call is faulted, if the container is
gone from the runtime, or if it is still running and `force` is not set; on
success `del self._containers[service_name]` runs.

`remove_after_stop` is the remainder of the method after the stop-first
check, taking the result of that (possibly skipped) stop. -/
def remove_after_stop (f : Faults) (stopRes : CMResult) (s : String)
    (h : Handle) (force : Bool) : CMResult :=
  if f.removeFails then
    ⟨false, stopRes.st, stopRes.tr ++ [.removeCall h.cname force]⟩
  else match findC stopRes.st.runtime h.cname with
    | none => ⟨false, stopRes.st, stopRes.tr ++ [.removeCall h.cname force]⟩
    | some c =>
      if c.status = "running" ∧ ¬ force then
        ⟨false, stopRes.st, stopRes.tr ++ [.removeCall h.cname force]⟩
      else
        ⟨true,
          { runtime := removeC stopRes.st.runtime h.cname,
            registry := eraseA stopRes.st.registry s },
          stopRes.tr ++ [.removeCall h.cname force]⟩

def remove_container (f : Faults) (st : CMState) (s : String)
    (force : Bool) : CMResult :=
  match lookupA st.registry s with
  | none => ⟨false, st, []⟩
  | some h =>
    remove_after_stop f
      (if h.cachedStatus = "running" then stop_container f st s 30
       else ⟨true, st, []⟩) s h force

/-- ContainerManager.create_container (lines 97-117).
`self.client.containers.create(**container_config)` raises `Conflict` when a
container named `homie_<service>` already exists in the runtime; on success
the new container is `created` and carries the configured image.  The
subsequent `self.network.connect(container)` can also raise; in that case the
container exists in the runtime but `self._containers[service_name]` is never
assigned and `False` is returned. -/
def create_container (f : Faults) (st : CMState) (s : String)
    (cfg : ServiceConfig) : CMResult :=
  match findC st.runtime ("homie_" ++ s) with
  | some _ => ⟨false, st, [.createCall ("homie_" ++ s) cfg.image]⟩
  | none =>
    if f.createFails then
      ⟨false, st, [.createCall ("homie_" ++ s) cfg.image]⟩
    else if f.connectFails then
      ⟨false,
        { st with runtime :=
            ⟨"homie_" ++ s, "created", cfg.image, "", 0⟩ :: st.runtime },
        [.createCall ("homie_" ++ s) cfg.image, .connectCall ("homie_" ++ s)]⟩
    else
      ⟨true,
        { runtime := ⟨"homie_" ++ s, "created", cfg.image, "", 0⟩ :: st.runtime,
          registry := setA st.registry s ⟨"homie_" ++ s, "created"⟩ },
        [.createCall ("homie_" ++ s) cfg.image, .connectCall ("homie_" ++ s)]⟩

/-- ContainerManager.pull_image (lines 253-263). -/
def pull_image (f : Faults) (st : CMState) (image : String) : CMResult :=
  if f.pullFails then ⟨false, st, [.pullCall image]⟩
  else ⟨true, st, [.pullCall image]⟩

/-- ContainerManager.update_container (lines 265-284): stop → remove →
pull-image → create → start, each awaited in sequence with the returned
booleans ignored; none of the five sub-operations lets an exception escape,
so the outer `except` is dead and `True` is returned. -/
def update_container (f : Faults) (st : CMState) (s : String)
    (cfg : ServiceConfig) : CMResult :=
  let r1 := stop_container f st s 30
  let r2 := remove_container f r1.st s false
  let r3 := pull_image f r2.st cfg.image
  let r4 := create_container f r3.st s cfg
  let r5 := start_container f r4.st s
  ⟨true, r5.st, r1.tr ++ r2.tr ++ r3.tr ++ r4.tr ++ r5.tr⟩

/-- ContainerManager.get_container_status (lines 188-200): unknown name
returns `"unknown"`; otherwise `container.reload()` re-reads the runtime
(updating the handle's cached status) and the runtime status is returned;
a raising reload (fault, or container gone) yields `"error"`. -/
def get_container_status (f : Faults) (st : CMState) (s : String) :
    String × CMState :=
  match lookupA st.registry s with
  | none => ("unknown", st)
  | some h =>
    if f.reloadFails then ("error", st)
    else match findC st.runtime h.cname with
      | none => ("error", st)
      | some c =>
        (c.status,
          { st with registry := setA st.registry s { h with cachedStatus := c.status } })

/-- ContainerManager.get_container_logs (lines 202-213): unknown name
returns the sentinel string `"Container not found"`; a raising
`container.logs` call returns an error string; otherwise the decoded log
text. -/
def get_container_logs (f : Faults) (st : CMState) (s : String)
    (tail : Nat) : String :=
  match lookupA st.registry s with
  | none => "Container not found"
  | some h =>
    if f.logsFails then "Error getting logs: DockerException"
    else match findC st.runtime h.cname with
      | none => "Error getting logs: DockerException"
      | some c => c.logsText

/-- ContainerManager.get_container_stats (lines 215-227): unknown name
returns `None`; a raising `container.stats` call returns `None`; otherwise
the stats payload. -/
def get_container_stats (f : Faults) (st : CMState) (s : String) :
    Option Nat :=
  match lookupA st.registry s with
  | none => none
  | some h =>
    if f.statsFails then none
    else match findC st.runtime h.cname with
      | none => none
      | some c => some c.statsBlob

/-! ### Container manager: list_containers (lines 229-251)

Each registry entry is reloaded from the runtime; a raising reload yields an
entry `{"error": str(e), "status": "error"}` instead of being dropped. -/

/-- One entry of the dict `list_containers` returns per service (only the
fields the health monitor reads: `status`, and the optional `error`). -/
structure ContainerInfo where
  status : String
  error : Option String
  deriving DecidableEq, Repr

def list_containers (f : Faults) (st : CMState) :
    List (String × ContainerInfo) :=
  st.registry.map (fun p =>
    if f.reloadFails then (p.1, ⟨"error", some "DockerException"⟩)
    else match findC st.runtime p.2.cname with
      | none => (p.1, ⟨"error", some "DockerException"⟩)
      | some c => (p.1, ⟨c.status, none⟩))

/-! ### Health monitor (health_monitor.py) -/

/-- The HealthCheck record (api/models.py) as stored in
`HealthMonitor.health_checks`. -/
structure HealthCheck where
  status : String
  message : String
  lastCheck : Int
  deriving DecidableEq, Repr

/-- The if/elif classification chain of
HealthMonitor._check_container_health (lines 76-93), producing the verdict
status and message. -/
def classifyHealth (info : ContainerInfo) : String × String :=
  if info.status = "running" then ("healthy", "Container is running normally")
  else if info.status = "restarting" then ("warning", "Container is restarting")
  else if info.status = "stopped" ∨ info.status = "exited" then
    ("unhealthy", "Container is " ++ info.status)
  else if info.error.isSome then ("error", info.error.getD "")
  else ("unknown", "Unknown container status: " ++ info.status)

/-- HealthMonitor._check_container_health (lines 73-118):
`self.health_checks[service_name] = health_check` — overwrite of the
verdict map entry for this service. -/
def check_container_health (hm : List (String × HealthCheck)) (now : Int)
    (s : String) (info : ContainerInfo) : List (String × HealthCheck) :=
  setA hm s ⟨(classifyHealth info).1, (classifyHealth info).2, now⟩

def healthyCount (hm : List (String × HealthCheck)) : Nat :=
  (hm.filter (fun p => p.2.status = "healthy")).length

def totalCount (hm : List (String × HealthCheck)) : Nat := hm.length

/-- HealthMonitor.get_overall_health (lines 128-148): the `healthy` field of
the returned dict.  Python evaluates
`total_count == 0 or (healthy_count / total_count) >= 0.8` with true
division; the division is modelled over ℚ. -/
def overall_healthy (hm : List (String × HealthCheck)) : Bool :=
  totalCount hm == 0 ||
    decide ((healthyCount hm : ℚ) / (totalCount hm : ℚ) ≥ (8 : ℚ) / 10)

/-! ### Scheduler (scheduler.py) -/

/-- An apscheduler trigger as built by `add_task`: either a
`CronTrigger.from_crontab(schedule)` or an `IntervalTrigger(seconds=n)`. -/
inductive TrigSpec where
  | cron (expr : String)
  | interval (seconds : Int)
  deriving DecidableEq, Repr

/-- One entry of `Scheduler.tasks`.  `trigger = none` means `task.job is
None` (no active registration); `next_run = job.next_run_time` is refreshed
from the engine. -/
structure TaskRec where
  name : String
  schedule : String
  enabled : Bool
  last_run : Option Int
  next_run : Option Int
  trigger : Option TrigSpec
  deriving DecidableEq, Repr

/-- Scheduler._task_wrapper (lines 240-259) acting on one task record:
`task.last_run = datetime.now()` runs first; then the bound action runs —
if it raises, the `except` block only logs, so the
`if task.job: task.next_run = task.job.next_run_time` update is skipped;
if it completes, `next_run` is refreshed from the engine's computed
next-fire time (`engineNext`). -/
def task_wrapper (now : Int) (engineNext : Option Int) (actionRaises : Bool)
    (t : TaskRec) : TaskRec :=
  if actionRaises then { t with last_run := some now }
  else if t.trigger.isSome then
    { t with last_run := some now, next_run := engineNext }
  else { t with last_run := some now }

/-- One firing of a scheduled task at the task-map level: apscheduler calls
`_task_wrapper(task)` with the `Task` object stored in `self.tasks`; the
wrapper mutates that object and never touches the map itself. -/
def fire_task (tasks : List (String × TaskRec)) (task_id : String)
    (now : Int) (engineNext : Option Int) (actionRaises : Bool) :
    List (String × TaskRec) :=
  match lookupA tasks task_id with
  | none => tasks
  | some t => setA tasks task_id (task_wrapper now engineNext actionRaises t)

/-! ### Backup manager (backup_manager.py)

The filesystem is the list of paths present (directories and files alike).
`BkFaults` injects an exception into each of the four backup steps that
touch the filesystem. -/

structure BkFaults where
  configsFail : Bool
  dataFail : Bool
  metadataFail : Bool
  archiveFail : Bool
  deriving DecidableEq, Repr

def noBkFaults : BkFaults := ⟨false, false, false, false⟩

/-- Filesystem operations performed by `create_backup`, for the trace.
`packEv dst src` is `_create_archive(src, dst)` opening the archive *at
path `dst`* for writing. -/
inductive BkEvent where
  | mkdirEv (p : String)
  | writeEv (p : String)
  | packEv (dst : String) (src : String)
  | rmtreeEv (p : String)
  | unlinkEv (p : String)
  deriving DecidableEq, Repr

structure BkResult where
  result : Option String
  fs : List String
  tr : List BkEvent
  deriving DecidableEq, Repr

/-- `f"orchestrator_backup_{timestamp}.tar.gz"` (line 70). -/
def backup_filename (ts : String) : String :=
  "orchestrator_backup_" ++ ts ++ ".tar.gz"

/-- `self.backup_path / backup_filename` (line 71) — the archive's final
path. -/
def backup_file_path (bp ts : String) : String :=
  bp ++ "/" ++ backup_filename ts

/-- `self.backup_path / f"temp_{timestamp}"` (line 76) — the staging
directory. -/
def temp_dir_path (bp ts : String) : String := bp ++ "/temp_" ++ ts

/-- The path `create_backup` hands to `_create_archive` as the archive to
write (line 90): it is `backup_file_path` itself — the final name. -/
def archive_write_path (bp ts : String) : String := backup_file_path bp ts

def insertPath (fs : List String) (p : String) : List String :=
  if p ∈ fs then fs else p :: fs

/-- Path containment for the filesystem model (a path is inside a
directory iff the directory's path is a prefix of it). -/
def strPrefixOf (a b : String) : Bool := a.data.isPrefixOf b.data

/-- `shutil.rmtree(td)`: removes the directory and everything below it. -/
def rmtreeFS (fs : List String) (td : String) : List String :=
  fs.filter (fun p => ! strPrefixOf td p)

/-- `if temp_dir.exists(): shutil.rmtree(temp_dir)` (lines 100-101). -/
def bk_rm (fs : List String) (td : String) : List String × List BkEvent :=
  if (fs.filter (fun p => strPrefixOf td p)) ≠ [] then
    (rmtreeFS fs td, [BkEvent.rmtreeEv td])
  else (fs, [])

/-- `if backup_file_path.exists(): backup_file_path.unlink()`
(lines 102-103). -/
def bk_unlink (r : List String × List BkEvent) (ap : String) :
    List String × List BkEvent :=
  if ap ∈ r.1 then
    (r.1.filter (fun p => p ≠ ap), r.2 ++ [BkEvent.unlinkEv ap])
  else r

/-- The `except` block of create_backup (lines 98-104): remove the staging
directory if it exists, then the partially written archive if it exists. -/
def bk_cleanup (fs : List String) (td ap : String) :
    List String × List BkEvent :=
  bk_unlink (bk_rm fs td) ap

/-- BackupManager.create_backup (lines 66-108).  Step by step:
`temp_dir.mkdir`; `_backup_configs` (mkdir of `config/` then copy, which can
raise); `_backup_service_data` (mkdir of `data/` then copy);
`_create_backup_metadata` (writes `metadata.json`); `_create_archive`
(opens the archive for writing **at the final path** and packs the staging
directory — a raise here leaves that partially written file behind for the
`except` block); on success `shutil.rmtree(temp_dir)` and the filename is
returned; on any raise the `except` block removes the staging directory and
the partially written archive and `None` is returned. -/
def create_backup (flt : BkFaults) (fs : List String) (bp ts : String) :
    BkResult :=
  let td := temp_dir_path bp ts
  let ap := archive_write_path bp ts
  let fs1 := insertPath fs td
  let tr1 := [BkEvent.mkdirEv td]
  -- _backup_configs
  let fs2 := insertPath fs1 (td ++ "/config")
  let tr2 := tr1 ++ [BkEvent.mkdirEv (td ++ "/config")]
  if flt.configsFail then
    ⟨none, (bk_cleanup fs2 td ap).1, tr2 ++ (bk_cleanup fs2 td ap).2⟩
  else
  -- _backup_service_data
  let fs3 := insertPath fs2 (td ++ "/data")
  let tr3 := tr2 ++ [BkEvent.mkdirEv (td ++ "/data")]
  if flt.dataFail then
    ⟨none, (bk_cleanup fs3 td ap).1, tr3 ++ (bk_cleanup fs3 td ap).2⟩
  else
  -- _create_backup_metadata
  if flt.metadataFail then
    ⟨none, (bk_cleanup fs3 td ap).1, tr3 ++ (bk_cleanup fs3 td ap).2⟩
  else
  let fs4 := insertPath fs3 (td ++ "/metadata.json")
  let tr4 := tr3 ++ [BkEvent.writeEv (td ++ "/metadata.json")]
  -- _create_archive: tarfile.open(ap, "w:gz") creates the file at ap,
  -- then packs; an injected fault raises after the file exists.
  let fs5 := insertPath fs4 ap
  let tr5 := tr4 ++ [BkEvent.packEv ap td]
  if flt.archiveFail then
    ⟨none, (bk_cleanup fs5 td ap).1, tr5 ++ (bk_cleanup fs5 td ap).2⟩
  else
  ⟨some (backup_filename ts), rmtreeFS fs5 td, tr5 ++ [BkEvent.rmtreeEv td]⟩

/-- BackupManager.list_backups (lines 159-187), reduced to the filenames it
enumerates: `self.backup_path.glob("orchestrator_backup_*.tar.gz")` — the
files directly under `bp` matching the pattern. -/
def list_backup_filenames (fs : List String) (bp : String) : List String :=
  (fs.filter (fun p =>
    strPrefixOf (bp ++ "/orchestrator_backup_") p &&
      ".tar.gz".data.isSuffixOf p.data &&
      !((p.drop (bp.length + 1)).data.contains '/'))).map
    (fun p => p.drop (bp.length + 1))

/-! ### Predicates and spec-modelled comparison definitions -/

/-- Every registry entry's docker-py handle refers to the container named
`homie_<service>` — the naming convention `_prepare_container_config`
establishes for every container this manager creates. -/
def registryNamesOk (st : CMState) : Prop :=
  ∀ s h, lookupA st.registry s = some h → h.cname = "homie_" ++ s

/-- A live instance exists for `name`: the registry holds a handle for it
and the handle's container still exists in the runtime. -/
def liveInstance (st : CMState) (s : String) : Prop :=
  ∃ h, lookupA st.registry s = some h ∧ (findC st.runtime h.cname).isSome = true

/-- Modelled from the spec: the spec describes `getContainerLogs` /
`getContainerStats` for an unknown name as returning "a null result"; this
definition renders that description (an absent, `none` payload for an
unknown name) as the comparison point for the refinement counterexample
below.  The code's own definition is `get_container_logs`. -/
def get_container_logs_specd (st : CMState) (s : String) : Option String :=
  match lookupA st.registry s with
  | none => none
  | some h => (findC st.runtime h.cname).map (fun c => c.logsText)

/-- A verdict map with `h` healthy services followed by `u` unhealthy
ones (distinct keys). -/
def hmOf (h u : Nat) : List (String × HealthCheck) :=
  ((List.range h).map (fun i => ("h" ++ toString i,
    (⟨"healthy", "Container is running normally", 0⟩ : HealthCheck)))) ++
  ((List.range u).map (fun i => ("u" ++ toString i,
    (⟨"unhealthy", "Container is exited", 0⟩ : HealthCheck))))

/-- A registered interval-task record used for the firing claims. -/
def tRec0 : TaskRec :=
  ⟨"T", "30s", true, none, some 100, some (.interval 30)⟩

/-! ### Concrete fixtures used by witnesses and counterexamples -/

/-- A state with one registered service `a` whose container `homie_a` is
running. -/
def stRun : CMState :=
  { runtime := [⟨"homie_a", "running", "img1", "LOG", 7⟩],
    registry := [("a", ⟨"homie_a", "running"⟩)] }

/-- The empty manager state. -/
def stEmpty : CMState := { runtime := [], registry := [] }

/-- Fault configuration where only `container.start` raises. -/
def fStart : Faults :=
  ⟨false, false, false, false, true, false, false, false, false⟩

/-- Fault configuration where only `containers.create` raises. -/
def fCreate : Faults :=
  ⟨false, false, true, false, false, false, false, false, false⟩

/-- Fault configuration where only `container.remove` raises. -/
def fRemove : Faults :=
  ⟨false, true, false, false, false, false, false, false, false⟩

/-! ### Helper lemmas about maps and the container manager operations -/

theorem lookupA_setA_self {α : Type} (m : List (String × α)) (k : String)
    (v : α) : lookupA (setA m k v) k = some v := by
  simp [setA, lookupA]

theorem lookupA_filter_ne {α : Type} (m : List (String × α)) (k k' : String)
    (h : k' ≠ k) :
    lookupA (m.filter (fun p => p.1 ≠ k)) k' = lookupA m k' := by
  induction m with
  | nil => rfl
  | cons p rest ih =>
    by_cases hp : p.1 = k
    · rw [List.filter_cons_of_neg (by simp [hp])]
      rw [ih]
      conv_rhs => unfold lookupA
      rw [if_neg (show ¬ p.1 = k' from fun he => h (he ▸ hp))]
    · rw [List.filter_cons_of_pos (by simp [hp])]
      conv_lhs => unfold lookupA
      conv_rhs => unfold lookupA
      by_cases hk' : p.1 = k'
      · rw [if_pos hk', if_pos hk']
      · rw [if_neg hk', if_neg hk', ih]

theorem lookupA_setA_ne {α : Type} (m : List (String × α)) (k k' : String)
    (v : α) (h : k' ≠ k) : lookupA (setA m k v) k' = lookupA m k' := by
  unfold setA
  conv_lhs => unfold lookupA
  rw [if_neg (fun he => h he.symm)]
  exact lookupA_filter_ne m k k' h

theorem keysNodup_setA {α : Type} (m : List (String × α)) (k : String)
    (v : α) (h : keysNodup m) : keysNodup (setA m k v) := by
  unfold keysNodup setA
  simp only [List.map_cons]
  refine List.nodup_cons.2 ⟨?_, ?_⟩
  · intro hk
    rcases List.mem_map.1 hk with ⟨p, hp, hp1⟩
    have hne := (List.mem_filter.1 hp).2
    rw [hp1] at hne
    simp at hne
  · exact List.Nodup.sublist ((List.filter_sublist m).map (fun p => p.1)) h

theorem lookupA_eraseA_self {α : Type} (m : List (String × α)) (k : String) :
    lookupA (eraseA m k) k = none := by
  induction m with
  | nil => rfl
  | cons p rest ih =>
    unfold eraseA at ih ⊢
    by_cases hp : p.1 = k
    · rw [List.filter_cons_of_neg (by simp [hp])]; exact ih
    · rw [List.filter_cons_of_pos (by simp [hp])]
      unfold lookupA
      rw [if_neg hp]
      exact ih

theorem findC_removeC_self (rt : List DContainer) (n : String) :
    findC (removeC rt n) n = none := by
  induction rt with
  | nil => rfl
  | cons c rest ih =>
    unfold removeC at ih ⊢
    by_cases hc : c.name = n
    · rw [List.filter_cons_of_neg (by simp [hc])]; exact ih
    · rw [List.filter_cons_of_pos (by simp [hc])]
      unfold findC
      rw [if_neg hc]
      exact ih

theorem stop_container_registry (f : Faults) (st : CMState) (s : String)
    (t : Nat) : (stop_container f st s t).st.registry = st.registry := by
  unfold stop_container
  rcases hr : lookupA st.registry s with _ | h
  · rfl
  · dsimp only
    split
    · rfl
    · split <;> rfl

theorem stop_container_tr_of_some (f : Faults) (st : CMState) (s : String)
    (t : Nat) (h : Handle) (hreg : lookupA st.registry s = some h) :
    (stop_container f st s t).tr = [DEvent.stopCall h.cname t] := by
  unfold stop_container
  rw [hreg]
  dsimp only
  split
  · rfl
  · split <;> rfl

theorem remove_after_stop_tr (f : Faults) (r : CMResult) (s : String)
    (h : Handle) (force : Bool) :
    (remove_after_stop f r s h force).tr =
      r.tr ++ [DEvent.removeCall h.cname force] := by
  unfold remove_after_stop
  split
  · rfl
  · split
    · rfl
    · split <;> rfl

theorem remove_after_stop_cases (f : Faults) (r : CMResult) (s : String)
    (h : Handle) (force : Bool) :
    ((remove_after_stop f r s h force).ok = false ∧
      (remove_after_stop f r s h force).st = r.st) ∨
    ((remove_after_stop f r s h force).ok = true ∧
      (remove_after_stop f r s h force).st =
        ⟨removeC r.st.runtime h.cname, eraseA r.st.registry s⟩) := by
  unfold remove_after_stop
  split
  · exact Or.inl ⟨rfl, rfl⟩
  · split
    · exact Or.inl ⟨rfl, rfl⟩
    · split
      · exact Or.inl ⟨rfl, rfl⟩
      · exact Or.inr ⟨rfl, rfl⟩

theorem remove_container_cases (f : Faults) (st : CMState) (s : String)
    (force : Bool) :
    ((remove_container f st s force).ok = false ∧
      (remove_container f st s force).st.registry = st.registry) ∨
    ((remove_container f st s force).ok = true ∧
      (remove_container f st s force).st.registry = eraseA st.registry s ∧
      ∃ h, lookupA st.registry s = some h ∧
        findC (remove_container f st s force).st.runtime h.cname = none) := by
  unfold remove_container
  rcases hr : lookupA st.registry s with _ | h
  · exact Or.inl ⟨rfl, rfl⟩
  · have hpre : (if h.cachedStatus = "running" then stop_container f st s 30
        else ⟨true, st, []⟩).st.registry = st.registry := by
      split
      · exact stop_container_registry f st s 30
      · rfl
    rcases remove_after_stop_cases f
        (if h.cachedStatus = "running" then stop_container f st s 30
         else ⟨true, st, []⟩) s h force with ⟨hok, hst⟩ | ⟨hok, hst⟩
    · exact Or.inl ⟨hok, by rw [hst, hpre]⟩
    · refine Or.inr ⟨hok, by rw [hst]; dsimp only; rw [hpre], h, rfl, ?_⟩
      rw [hst]
      exact findC_removeC_self _ h.cname

theorem remove_container_fail_registry (f : Faults) (st : CMState)
    (s : String) (force : Bool)
    (hf : (remove_container f st s force).ok = false) :
    (remove_container f st s force).st.registry = st.registry := by
  rcases remove_container_cases f st s force with ⟨_, hst⟩ | ⟨hok, _⟩
  · exact hst
  · rw [hok] at hf
    cases hf

theorem remove_container_ok_st (f : Faults) (st : CMState) (s : String)
    (force : Bool) (h : Handle) (hreg : lookupA st.registry s = some h)
    (hok : (remove_container f st s force).ok = true) :
    lookupA (remove_container f st s force).st.registry s = none ∧
    findC (remove_container f st s force).st.runtime h.cname = none := by
  rcases remove_container_cases f st s force with ⟨hko, _⟩ | ⟨_, hreg', h', hl', hfind'⟩
  · rw [hko] at hok
    cases hok
  · have hh : h' = h := by
      rw [hreg] at hl'
      cases hl'
      rfl
    exact ⟨by rw [hreg']; exact lookupA_eraseA_self _ s, hh ▸ hfind'⟩

theorem create_container_cases (f : Faults) (st : CMState) (s : String)
    (cfg : ServiceConfig) :
    ((create_container f st s cfg).ok = false ∧
      (create_container f st s cfg).st.registry = st.registry) ∨
    ((create_container f st s cfg).ok = true ∧
      (create_container f st s cfg).st =
        { runtime := ⟨"homie_" ++ s, "created", cfg.image, "", 0⟩ :: st.runtime,
          registry := setA st.registry s ⟨"homie_" ++ s, "created"⟩ }) := by
  unfold create_container
  split
  · exact Or.inl ⟨rfl, rfl⟩
  · split
    · exact Or.inl ⟨rfl, rfl⟩
    · split
      · exact Or.inl ⟨rfl, rfl⟩
      · exact Or.inr ⟨rfl, rfl⟩

theorem create_container_fail_registry (f : Faults) (st : CMState)
    (s : String) (cfg : ServiceConfig)
    (hf : (create_container f st s cfg).ok = false) :
    (create_container f st s cfg).st.registry = st.registry := by
  rcases create_container_cases f st s cfg with ⟨_, hst⟩ | ⟨hok, _⟩
  · exact hst
  · rw [hok] at hf
    cases hf

theorem create_container_fails_of_createFails (f : Faults) (st : CMState)
    (s : String) (cfg : ServiceConfig) (hcf : f.createFails = true) :
    (create_container f st s cfg).ok = false := by
  unfold create_container
  split
  · rfl
  · simp [hcf]

theorem create_container_ok_st (f : Faults) (st : CMState) (s : String)
    (cfg : ServiceConfig)
    (hfree : findC st.runtime ("homie_" ++ s) = none)
    (hcf : f.createFails = false) (hconn : f.connectFails = false) :
    (create_container f st s cfg).ok = true ∧
    (create_container f st s cfg).st =
      { runtime := ⟨"homie_" ++ s, "created", cfg.image, "", 0⟩ :: st.runtime,
        registry := setA st.registry s ⟨"homie_" ++ s, "created"⟩ } := by
  unfold create_container
  rw [hfree]
  simp [hcf, hconn]

theorem start_container_fail_st (f : Faults) (st : CMState) (s : String)
    (hsf : f.startFails = true) : (start_container f st s).st = st := by
  unfold start_container
  rcases lookupA st.registry s with _ | h
  · rfl
  · simp [hsf]

theorem start_container_registry (f : Faults) (st : CMState) (s : String) :
    (start_container f st s).st.registry = st.registry := by
  unfold start_container
  rcases lookupA st.registry s with _ | h
  · rfl
  · dsimp only
    split
    · rfl
    · split <;> rfl

theorem get_container_status_of_absent (f : Faults) (st : CMState)
    (s : String) (h : lookupA st.registry s = none) :
    (get_container_status f st s).1 = "unknown" := by
  unfold get_container_status
  rw [h]

/-! ### Claim C1 -/

theorem strPrefixOf_self (a : String) : strPrefixOf a a = true := by
  unfold strPrefixOf
  exact List.isPrefixOf_iff_prefix.mpr (List.prefix_refl a.data)

theorem strPrefixOf_append (a x : String) : strPrefixOf a (a ++ x) = true := by
  unfold strPrefixOf
  rw [String.data_append]
  exact List.isPrefixOf_iff_prefix.mpr (List.prefix_append a.data x.data)

theorem str_append_ne (a x : String) (hx : x.data ≠ []) : a ++ x ≠ a := by
  intro he
  have hd := congrArg String.data he
  rw [String.data_append] at hd
  have hlen := congrArg List.length hd
  rw [List.length_append] at hlen
  exact hx (List.length_eq_zero.mp (by omega))

theorem str_append_right_ne (a x y : String) (hne : x.data ≠ y.data) :
    a ++ x ≠ a ++ y := by
  intro he
  have hd := congrArg String.data he
  rw [String.data_append, String.data_append] at hd
  exact hne (List.append_cancel_left hd)

/-- The staging directory path is never a prefix of the archive path
(their first segments after the backup root are `temp_` vs
`orchestrator_backup_`). -/
theorem td_not_prefix_ap (bp ts : String) :
    strPrefixOf (temp_dir_path bp ts) (backup_file_path bp ts) = false := by
  cases hb : strPrefixOf (temp_dir_path bp ts) (backup_file_path bp ts) with
  | false => rfl
  | true =>
    exfalso
    unfold strPrefixOf temp_dir_path backup_file_path backup_filename at hb
    rw [List.isPrefixOf_iff_prefix] at hb
    simp only [String.data_append, List.append_assoc] at hb
    rw [List.prefix_append_right_inj] at hb
    simp only [List.cons_append, List.nil_append] at hb
    rw [List.cons_prefix_cons] at hb
    obtain ⟨-, hb⟩ := hb
    rw [List.cons_prefix_cons] at hb
    exact absurd hb.1 (by decide)

theorem insertPath_not_mem (fs : List String) (p : String) (h : p ∉ fs) :
    insertPath fs p = p :: fs := by
  unfold insertPath
  rw [if_neg h]

theorem filter_pfx_staged (fs : List String) (td : String)
    (L : List String) (hL : ∀ p ∈ L, strPrefixOf td p = true)
    (hfs : ∀ p ∈ fs, strPrefixOf td p = false) :
    (L ++ fs).filter (fun p => strPrefixOf td p) = L := by
  rw [List.filter_append, List.filter_eq_self.mpr hL,
    List.filter_eq_nil_iff.mpr (fun p hp => by rw [hfs p hp]; exact
      Bool.false_ne_true), List.append_nil]

theorem filter_not_pfx_staged (fs : List String) (td : String)
    (L : List String) (hL : ∀ p ∈ L, strPrefixOf td p = true)
    (hfs : ∀ p ∈ fs, strPrefixOf td p = false) :
    (L ++ fs).filter (fun p => ! strPrefixOf td p) = fs := by
  rw [List.filter_append,
    List.filter_eq_nil_iff.mpr (fun p hp => by simp [hL p hp]),
    List.nil_append,
    List.filter_eq_self.mpr (fun p hp => by simp [hfs p hp])]

theorem bk_rm_staged (fs : List String) (td : String) (L : List String)
    (hL : ∀ p ∈ L, strPrefixOf td p = true) (hLne : L ≠ [])
    (hfs : ∀ p ∈ fs, strPrefixOf td p = false) :
    bk_rm (L ++ fs) td = (fs, [BkEvent.rmtreeEv td]) := by
  unfold bk_rm
  rw [filter_pfx_staged fs td L hL hfs, if_pos hLne]
  unfold rmtreeFS
  rw [filter_not_pfx_staged fs td L hL hfs]

theorem bk_rm_staged_ap (fs : List String) (td ap : String)
    (L : List String) (hL : ∀ p ∈ L, strPrefixOf td p = true) (hLne : L ≠ [])
    (hfs : ∀ p ∈ fs, strPrefixOf td p = false)
    (hap2 : strPrefixOf td ap = false) :
    bk_rm (ap :: (L ++ fs)) td = (ap :: fs, [BkEvent.rmtreeEv td]) := by
  unfold bk_rm
  rw [List.filter_cons_of_neg (by rw [hap2]; exact Bool.false_ne_true),
    filter_pfx_staged fs td L hL hfs, if_pos hLne]
  unfold rmtreeFS
  rw [List.filter_cons_of_pos (by rw [hap2]; rfl),
    filter_not_pfx_staged fs td L hL hfs]

theorem bk_unlink_not_mem (r : List String × List BkEvent) (ap : String)
    (h : ap ∉ r.1) : bk_unlink r ap = r := by
  unfold bk_unlink
  rw [if_neg h]

theorem bk_unlink_head (fs : List String) (ap : String) (tr : List BkEvent)
    (h : ap ∉ fs) :
    bk_unlink (ap :: fs, tr) ap = (fs, tr ++ [BkEvent.unlinkEv ap]) := by
  unfold bk_unlink
  rw [if_pos (List.mem_cons_self ap fs)]
  dsimp only
  rw [List.filter_cons_of_neg (by simp),
    List.filter_eq_self.mpr (fun p hp => by
      simp only [ne_eq, decide_eq_true_eq]
      exact fun he => h (he ▸ hp))]

theorem bk_cleanup_staged (fs : List String) (td ap : String)
    (L : List String) (hL : ∀ p ∈ L, strPrefixOf td p = true) (hLne : L ≠ [])
    (hfs : ∀ p ∈ fs, strPrefixOf td p = false) (hap : ap ∉ fs) :
    bk_cleanup (L ++ fs) td ap = (fs, [BkEvent.rmtreeEv td]) := by
  unfold bk_cleanup
  rw [bk_rm_staged fs td L hL hLne hfs]
  exact bk_unlink_not_mem (fs, [BkEvent.rmtreeEv td]) ap hap

theorem bk_cleanup_staged_ap (fs : List String) (td ap : String)
    (L : List String) (hL : ∀ p ∈ L, strPrefixOf td p = true) (hLne : L ≠ [])
    (hfs : ∀ p ∈ fs, strPrefixOf td p = false) (hap : ap ∉ fs)
    (hap2 : strPrefixOf td ap = false) :
    bk_cleanup (ap :: (L ++ fs)) td ap =
      (fs, [BkEvent.rmtreeEv td, BkEvent.unlinkEv ap]) := by
  unfold bk_cleanup
  rw [bk_rm_staged_ap fs td ap L hL hLne hfs hap2]
  exact bk_unlink_head fs ap [BkEvent.rmtreeEv td] hap

/-- C1 counterexample.  `create_backup` never packages the archive under a
temporary name: the single packaging call it issues writes directly at the
final archive path (`archive_write_path` *is* `backup_file_path`), and when
the archiving step fails the partially written file that the `except` block
must unlink sits at that final path — against the claim that the archive
"is first packaged under a temporary name distinct from the final archive
name". -/
theorem C1_counterexample_archive_written_at_final_name :
    archive_write_path "b" "T1" = backup_file_path "b" "T1" ∧
    BkEvent.packEv (backup_file_path "b" "T1") (temp_dir_path "b" "T1") ∈
      (create_backup ⟨false, false, false, true⟩ [] "b" "T1").tr ∧
    BkEvent.unlinkEv (backup_file_path "b" "T1") ∈
      (create_backup ⟨false, false, false, true⟩ [] "b" "T1").tr ∧
    ((create_backup ⟨false, false, false, true⟩ [] "b" "T1").tr.filterMap
      (fun e => match e with
        | BkEvent.packEv dst _ => some dst
        | _ => none)) = [backup_file_path "b" "T1"] := by
  decide

/-- C1 amended: the archive is written directly under its final name (only
the staging *directory* has a temporary name), so atomicity comes from
cleanup rather than a rename: if any backup step fails, `create_backup`
returns no filename and removes the staging directory and any partially
written archive, leaving the filesystem exactly as before — in particular
no archive file for this timestamp exists afterwards and `listBackups`
returns exactly what it returned before the aborted attempt; only a fully
successful run leaves (exactly) the archive under its final name. -/
theorem C1_backup_atomic_cleanup (flt : BkFaults) (fs : List String)
    (bp ts : String)
    (htd : ∀ p ∈ fs, strPrefixOf (temp_dir_path bp ts) p = false)
    (hap : backup_file_path bp ts ∉ fs) :
    ((flt.configsFail = true ∨ flt.dataFail = true ∨
        flt.metadataFail = true ∨ flt.archiveFail = true) →
      (create_backup flt fs bp ts).result = none ∧
      (create_backup flt fs bp ts).fs = fs ∧
      backup_file_path bp ts ∉ (create_backup flt fs bp ts).fs ∧
      list_backup_filenames (create_backup flt fs bp ts).fs bp =
        list_backup_filenames fs bp) ∧
    create_backup noBkFaults fs bp ts =
      ⟨some (backup_filename ts), backup_file_path bp ts :: fs,
        [BkEvent.mkdirEv (temp_dir_path bp ts),
         BkEvent.mkdirEv (temp_dir_path bp ts ++ "/config"),
         BkEvent.mkdirEv (temp_dir_path bp ts ++ "/data"),
         BkEvent.writeEv (temp_dir_path bp ts ++ "/metadata.json"),
         BkEvent.packEv (backup_file_path bp ts) (temp_dir_path bp ts),
         BkEvent.rmtreeEv (temp_dir_path bp ts)]⟩ := by
  have hmemx : ∀ x : String, (temp_dir_path bp ts ++ x) ∉ fs := by
    intro x hm
    have hc := htd _ hm
    rw [strPrefixOf_append] at hc
    cases hc
  have hmem_td : temp_dir_path bp ts ∉ fs := by
    intro hm
    have hc := htd _ hm
    rw [strPrefixOf_self] at hc
    cases hc
  have hap2 : strPrefixOf (temp_dir_path bp ts) (backup_file_path bp ts)
      = false := td_not_prefix_ap bp ts
  have hapnex : ∀ x : String,
      backup_file_path bp ts ≠ temp_dir_path bp ts ++ x := by
    intro x he
    have hc := strPrefixOf_append (temp_dir_path bp ts) x
    rw [← he, hap2] at hc
    cases hc
  have haptd : backup_file_path bp ts ≠ temp_dir_path bp ts := by
    intro he
    rw [he, strPrefixOf_self] at hap2
    cases hap2
  have hne2td : temp_dir_path bp ts ++ "/config" ≠ temp_dir_path bp ts :=
    str_append_ne _ _ (by decide)
  have hne3td : temp_dir_path bp ts ++ "/data" ≠ temp_dir_path bp ts :=
    str_append_ne _ _ (by decide)
  have hne4td : temp_dir_path bp ts ++ "/metadata.json" ≠ temp_dir_path bp ts :=
    str_append_ne _ _ (by decide)
  have hne32 : temp_dir_path bp ts ++ "/data" ≠
      temp_dir_path bp ts ++ "/config" := str_append_right_ne _ _ _ (by decide)
  have hne42 : temp_dir_path bp ts ++ "/metadata.json" ≠
      temp_dir_path bp ts ++ "/config" := str_append_right_ne _ _ _ (by decide)
  have hne43 : temp_dir_path bp ts ++ "/metadata.json" ≠
      temp_dir_path bp ts ++ "/data" := str_append_right_ne _ _ _ (by decide)
  have hm1 : temp_dir_path bp ts ∉ fs := hmem_td
  have hm2 : (temp_dir_path bp ts ++ "/config") ∉ temp_dir_path bp ts :: fs := by
    intro hm
    rcases List.mem_cons.mp hm with he | hm
    · exact hne2td he
    · exact hmemx _ hm
  have hm3 : (temp_dir_path bp ts ++ "/data") ∉
      (temp_dir_path bp ts ++ "/config") :: temp_dir_path bp ts :: fs := by
    intro hm
    rcases List.mem_cons.mp hm with he | hm
    · exact hne32 he
    rcases List.mem_cons.mp hm with he | hm
    · exact hne3td he
    · exact hmemx _ hm
  have hm4 : (temp_dir_path bp ts ++ "/metadata.json") ∉
      (temp_dir_path bp ts ++ "/data") ::
      (temp_dir_path bp ts ++ "/config") :: temp_dir_path bp ts :: fs := by
    intro hm
    rcases List.mem_cons.mp hm with he | hm
    · exact hne43 he
    rcases List.mem_cons.mp hm with he | hm
    · exact hne42 he
    rcases List.mem_cons.mp hm with he | hm
    · exact hne4td he
    · exact hmemx _ hm
  have hmAp : backup_file_path bp ts ∉
      (temp_dir_path bp ts ++ "/metadata.json") ::
      (temp_dir_path bp ts ++ "/data") ::
      (temp_dir_path bp ts ++ "/config") :: temp_dir_path bp ts :: fs := by
    intro hm
    rcases List.mem_cons.mp hm with he | hm
    · exact hapnex _ he
    rcases List.mem_cons.mp hm with he | hm
    · exact hapnex _ he
    rcases List.mem_cons.mp hm with he | hm
    · exact hapnex _ he
    rcases List.mem_cons.mp hm with he | hm
    · exact haptd he
    · exact hap hm
  have hL2 : ∀ p ∈ [temp_dir_path bp ts ++ "/config", temp_dir_path bp ts],
      strPrefixOf (temp_dir_path bp ts) p = true := by
    intro p hp
    rcases List.mem_cons.mp hp with rfl | hp
    · exact strPrefixOf_append _ _
    rcases List.mem_cons.mp hp with rfl | hp
    · exact strPrefixOf_self _
    · cases hp
  have hL3 : ∀ p ∈ [temp_dir_path bp ts ++ "/data",
      temp_dir_path bp ts ++ "/config", temp_dir_path bp ts],
      strPrefixOf (temp_dir_path bp ts) p = true := by
    intro p hp
    rcases List.mem_cons.mp hp with rfl | hp
    · exact strPrefixOf_append _ _
    exact hL2 p hp
  have hL4 : ∀ p ∈ [temp_dir_path bp ts ++ "/metadata.json",
      temp_dir_path bp ts ++ "/data", temp_dir_path bp ts ++ "/config",
      temp_dir_path bp ts],
      strPrefixOf (temp_dir_path bp ts) p = true := by
    intro p hp
    rcases List.mem_cons.mp hp with rfl | hp
    · exact strPrefixOf_append _ _
    exact hL3 p hp
  constructor
  · intro hfail
    rcases flt with ⟨cf, df, mf, af⟩
    dsimp only at hfail
    cases cf with
    | true =>
      simp only [create_backup, archive_write_path]
      rw [insertPath_not_mem fs _ hm1, insertPath_not_mem _ _ hm2]
      rw [show (temp_dir_path bp ts ++ "/config") :: temp_dir_path bp ts :: fs
          = [temp_dir_path bp ts ++ "/config", temp_dir_path bp ts] ++ fs
          from rfl]
      rw [bk_cleanup_staged fs _ _ _ hL2 (by simp) htd hap]
      exact ⟨rfl, rfl, hap, rfl⟩
    | false =>
    cases df with
    | true =>
      simp only [create_backup, archive_write_path]
      rw [insertPath_not_mem fs _ hm1, insertPath_not_mem _ _ hm2,
        insertPath_not_mem _ _ hm3]
      rw [show (temp_dir_path bp ts ++ "/data") ::
          (temp_dir_path bp ts ++ "/config") :: temp_dir_path bp ts :: fs
          = [temp_dir_path bp ts ++ "/data",
             temp_dir_path bp ts ++ "/config", temp_dir_path bp ts] ++ fs
          from rfl]
      rw [bk_cleanup_staged fs _ _ _ hL3 (by simp) htd hap]
      exact ⟨rfl, rfl, hap, rfl⟩
    | false =>
    cases mf with
    | true =>
      simp only [create_backup, archive_write_path]
      rw [insertPath_not_mem fs _ hm1, insertPath_not_mem _ _ hm2,
        insertPath_not_mem _ _ hm3]
      rw [show (temp_dir_path bp ts ++ "/data") ::
          (temp_dir_path bp ts ++ "/config") :: temp_dir_path bp ts :: fs
          = [temp_dir_path bp ts ++ "/data",
             temp_dir_path bp ts ++ "/config", temp_dir_path bp ts] ++ fs
          from rfl]
      rw [bk_cleanup_staged fs _ _ _ hL3 (by simp) htd hap]
      exact ⟨rfl, rfl, hap, rfl⟩
    | false =>
    cases af with
    | true =>
      simp only [create_backup, archive_write_path]
      rw [insertPath_not_mem fs _ hm1, insertPath_not_mem _ _ hm2,
        insertPath_not_mem _ _ hm3, insertPath_not_mem _ _ hm4,
        insertPath_not_mem _ _ hmAp]
      rw [show (temp_dir_path bp ts ++ "/metadata.json") ::
          (temp_dir_path bp ts ++ "/data") ::
          (temp_dir_path bp ts ++ "/config") :: temp_dir_path bp ts :: fs
          = [temp_dir_path bp ts ++ "/metadata.json",
             temp_dir_path bp ts ++ "/data",
             temp_dir_path bp ts ++ "/config", temp_dir_path bp ts] ++ fs
          from rfl]
      rw [bk_cleanup_staged_ap fs _ _ _ hL4 (by simp) htd hap hap2]
      exact ⟨rfl, rfl, hap, rfl⟩
    | false =>
      rcases hfail with hc | hc | hc | hc <;> cases hc
  · simp only [create_backup, noBkFaults, archive_write_path]
    rw [if_neg Bool.false_ne_true, if_neg Bool.false_ne_true,
      if_neg Bool.false_ne_true, if_neg Bool.false_ne_true]
    rw [insertPath_not_mem fs _ hm1, insertPath_not_mem _ _ hm2,
      insertPath_not_mem _ _ hm3, insertPath_not_mem _ _ hm4,
      insertPath_not_mem _ _ hmAp]
    unfold rmtreeFS
    rw [List.filter_cons_of_pos (by rw [hap2]; rfl)]
    rw [show (temp_dir_path bp ts ++ "/metadata.json") ::
        (temp_dir_path bp ts ++ "/data") ::
        (temp_dir_path bp ts ++ "/config") :: temp_dir_path bp ts :: fs
        = [temp_dir_path bp ts ++ "/metadata.json",
           temp_dir_path bp ts ++ "/data",
           temp_dir_path bp ts ++ "/config", temp_dir_path bp ts] ++ fs
        from rfl]
    rw [filter_not_pfx_staged fs _ _ hL4 htd]
    rfl

/-- C1 amended, witness: an archiving-step failure on an empty backup
directory leaves the filesystem empty, with no archive listed; the
fault-free run produces exactly the archive under its final name. -/
theorem C1_backup_atomic_cleanup_witness :
    ((create_backup ⟨false, false, false, true⟩ [] "b" "T1").result = none ∧
     (create_backup ⟨false, false, false, true⟩ [] "b" "T1").fs = [] ∧
     list_backup_filenames
       (create_backup ⟨false, false, false, true⟩ [] "b" "T1").fs "b" =
       list_backup_filenames [] "b") ∧
    (create_backup noBkFaults [] "b" "T1").fs =
      [backup_file_path "b" "T1"] := by
  have hm := C1_backup_atomic_cleanup ⟨false, false, false, true⟩ [] "b" "T1"
    (by simp) (by simp)
  have hf := hm.1 (Or.inr (Or.inr (Or.inr rfl)))
  refine ⟨⟨hf.1, hf.2.1, hf.2.2.2⟩, ?_⟩
  have hs := (C1_backup_atomic_cleanup ⟨false, false, false, true⟩ [] "b" "T1"
    (by simp) (by simp)).2
  rw [hs]

/-! ### Claim C2 -/

/-- C2 counterexample.  The claim says that when `force` is set, a forced
removal is attempted directly *without attempting a stop first*.  On a
running instance with `force = true`, `remove_container` nevertheless
attempts the graceful stop first: the runtime-call trace begins with the
stop call and only then issues the (forced) remove — the `force` flag is
consulted by `container.remove(force=force)` only, never by the stop-first
check `if container.status == "running"`. -/
theorem C2_counterexample_stop_attempted_despite_force :
    (remove_container noFaults stRun "a" true).tr =
      [DEvent.stopCall "homie_a" 30, DEvent.removeCall "homie_a" true] ∧
    DEvent.stopCall "homie_a" 30 ∈ (remove_container noFaults stRun "a" true).tr := by
  decide

/-- C2 amended: for a registered service, `removeContainer(name, force)`
attempts a graceful stop first whenever the instance's (cached) status is
running, **regardless of `force`**; the removal call itself carries the
`force` flag; when the instance is not running no stop is attempted; on
success the registry entry for the name is deleted. -/
theorem C2_remove_container_behaviour (f : Faults) (st : CMState)
    (s : String) (force : Bool) (h : Handle)
    (hreg : lookupA st.registry s = some h) :
    (h.cachedStatus = "running" →
      (remove_container f st s force).tr =
        [DEvent.stopCall h.cname 30, DEvent.removeCall h.cname force]) ∧
    (h.cachedStatus ≠ "running" →
      (remove_container f st s force).tr = [DEvent.removeCall h.cname force]) ∧
    ((remove_container f st s force).ok = true →
      lookupA (remove_container f st s force).st.registry s = none) := by
  refine ⟨?_, ?_, ?_⟩
  · intro hrun
    unfold remove_container
    rw [hreg]
    dsimp only
    rw [remove_after_stop_tr, if_pos hrun,
      stop_container_tr_of_some f st s 30 h hreg]
    rfl
  · intro hrun
    unfold remove_container
    rw [hreg]
    dsimp only
    rw [remove_after_stop_tr, if_neg hrun]
    rfl
  · intro hok
    exact (remove_container_ok_st f st s force h hreg hok).1

/-- C2 amended, witness: on the concrete running service `a` with
`force = true` the stop-first trace, and on a non-running cached status no
stop; the successful removal deletes the registry entry. -/
theorem C2_remove_container_behaviour_witness :
    (remove_container noFaults stRun "a" true).tr =
      [DEvent.stopCall "homie_a" 30, DEvent.removeCall "homie_a" true] ∧
    lookupA (remove_container noFaults stRun "a" true).st.registry "a" = none := by
  have hmain := C2_remove_container_behaviour noFaults stRun "a" true
    ⟨"homie_a", "running"⟩ (by decide)
  exact ⟨hmain.1 (by decide), hmain.2.2 (by decide)⟩

/-! ### Claim C3 -/

theorem stRun_registryNamesOk : registryNamesOk stRun := by
  intro s h hl
  unfold stRun lookupA at hl
  split at hl
  · cases hl
    rename_i hs
    rw [← hs]
    rfl
  · cases hl

/-- C3: when a live instance already exists for the name,
`self.client.containers.create` raises `Conflict` for the duplicate
container name `homie_<service>`, which `create_container` catches and
reports as failure; and on any failure (conflict, raising create, raising
network connect) no registry entry is added —
`self._containers[service_name] = container` is reached only after both the
create and the network connect succeeded. -/
theorem C3_create_container_conflict_and_no_partial_registration
    (f : Faults) (st : CMState) (s : String) (cfg : ServiceConfig) :
    (registryNamesOk st → liveInstance st s →
      (create_container f st s cfg).ok = false ∧
      (create_container f st s cfg).st.registry = st.registry) ∧
    ((create_container f st s cfg).ok = false →
      (create_container f st s cfg).st.registry = st.registry) := by
  constructor
  · intro hnames hlive
    rcases hlive with ⟨h, hreg, hfind⟩
    have hcname : h.cname = "homie_" ++ s := hnames s h hreg
    have hfree : ¬ findC st.runtime ("homie_" ++ s) = none := by
      rw [← hcname]
      intro hnone
      rw [hnone] at hfind
      cases hfind
    have hok : (create_container f st s cfg).ok = false ∧
        (create_container f st s cfg).st = st := by
      unfold create_container
      rcases hfc : findC st.runtime ("homie_" ++ s) with _ | c
      · exact absurd hfc hfree
      · exact ⟨rfl, rfl⟩
    exact ⟨hok.1, by rw [hok.2]⟩
  · exact create_container_fail_registry f st s cfg

/-- C3 witness: creating `a` while its live container `homie_a` exists
fails and leaves the registry unchanged. -/
theorem C3_witness :
    (create_container noFaults stRun "a" ⟨"img2"⟩).ok = false ∧
    (create_container noFaults stRun "a" ⟨"img2"⟩).st.registry = stRun.registry := by
  exact (C3_create_container_conflict_and_no_partial_registration noFaults
    stRun "a" ⟨"img2"⟩).1 stRun_registryNamesOk
    ⟨⟨"homie_a", "running"⟩, by decide, by decide⟩

/-! ### Claim C4 -/

theorem pull_image_st (f : Faults) (st : CMState) (image : String) :
    (pull_image f st image).st = st := by
  unfold pull_image
  split <;> rfl

theorem update_container_st (f : Faults) (st : CMState) (s : String)
    (cfg : ServiceConfig) :
    (update_container f st s cfg).st =
      (start_container f
        (create_container f
          (pull_image f
            (remove_container f (stop_container f st s 30).st s false).st
            cfg.image).st s cfg).st s).st := rfl

/-- C4 counterexample.  Inject a failure into the start step (a step after
the removal): `update_container` still returns success, the service is left
**with** an instance (a freshly created container), and
`getContainerStatus` reports `"created"` — not an absent/unknown state as
the claim requires for any failing step after removal (though indeed not a
fabricated `"running"` either). -/
theorem C4_counterexample_start_failure_leaves_created_instance :
    (update_container fStart stRun "a" ⟨"img2"⟩).ok = true ∧
    (lookupA (update_container fStart stRun "a" ⟨"img2"⟩).st.registry "a").isSome
      = true ∧
    (get_container_status noFaults
      (update_container fStart stRun "a" ⟨"img2"⟩).st "a").1 = "created" ∧
    ("created" : String) ≠ "unknown" ∧ ("created" : String) ≠ "absent" ∧
    ("created" : String) ≠ "running" := by
  decide

/-- C4 amended: `updateContainer` issues the five lifecycle steps in the
order stop, remove, pull-image(new), create(new), start (shown by the
runtime-call trace on a concrete running service; the remove step itself
re-attempts a stop because it re-reads the handle's stale cached status).
After a successful removal: if the create step fails, the service is left
with no instance and `getContainerStatus` reports `"unknown"`; if only the
start step fails, the service is left with a freshly created, non-running
instance and `getContainerStatus` reports `"created"` — in neither case is
a running status fabricated. -/
theorem C4_update_container_steps_and_failure_states
    (f g : Faults) (st : CMState) (s : String) (cfg : ServiceConfig)
    (hrem : (remove_container f (stop_container f st s 30).st s false).ok = true)
    (hg : g.reloadFails = false) :
    ((update_container noFaults stRun "a" ⟨"img2"⟩).tr =
      [DEvent.stopCall "homie_a" 30, DEvent.stopCall "homie_a" 30,
       DEvent.removeCall "homie_a" false, DEvent.pullCall "img2",
       DEvent.createCall "homie_a" "img2", DEvent.connectCall "homie_a",
       DEvent.startCall "homie_a"]) ∧
    (f.createFails = true →
      lookupA (update_container f st s cfg).st.registry s = none ∧
      (get_container_status g (update_container f st s cfg).st s).1
        = "unknown") ∧
    (f.createFails = false → f.connectFails = false → f.startFails = true →
      (∀ h, lookupA st.registry s = some h → h.cname = "homie_" ++ s) →
      lookupA (update_container f st s cfg).st.registry s =
        some ⟨"homie_" ++ s, "created"⟩ ∧
      (get_container_status g (update_container f st s cfg).st s).1
        = "created") := by
  refine ⟨by decide, ?_, ?_⟩
  · intro hcf
    have hlook : lookupA (update_container f st s cfg).st.registry s = none := by
      rw [update_container_st, start_container_registry,
        create_container_fail_registry f _ s cfg
          (create_container_fails_of_createFails f _ s cfg hcf),
        pull_image_st]
      rcases remove_container_cases f (stop_container f st s 30).st s false
        with ⟨hko, _⟩ | ⟨_, hrreg, _⟩
      · rw [hko] at hrem
        cases hrem
      · rw [hrreg]
        exact lookupA_eraseA_self _ s
    exact ⟨hlook, get_container_status_of_absent g _ s hlook⟩
  · intro hcf hconn hsf hnames
    rcases remove_container_cases f (stop_container f st s 30).st s false
      with ⟨hko, _⟩ | ⟨_, hrreg, h', hl', hfind'⟩
    · rw [hko] at hrem
      cases hrem
    · have hl'' : lookupA st.registry s = some h' := by
        rw [← stop_container_registry f st s 30]
        exact hl'
      have hfree : findC
          (pull_image f (remove_container f (stop_container f st s 30).st s
            false).st cfg.image).st.runtime ("homie_" ++ s) = none := by
        rw [pull_image_st, ← hnames h' hl'']
        exact hfind'
      have hco := create_container_ok_st f _ s cfg hfree hcf hconn
      have hfin : (update_container f st s cfg).st =
          { runtime := ⟨"homie_" ++ s, "created", cfg.image, "", 0⟩ ::
              (pull_image f (remove_container f (stop_container f st s 30).st
                s false).st cfg.image).st.runtime,
            registry := setA (pull_image f (remove_container f
              (stop_container f st s 30).st s false).st cfg.image).st.registry
              s ⟨"homie_" ++ s, "created"⟩ } := by
        rw [update_container_st, start_container_fail_st f _ s hsf, hco.2]
      constructor
      · rw [hfin]
        exact lookupA_setA_self _ s _
      · rw [hfin]
        unfold get_container_status
        rw [lookupA_setA_self]
        dsimp only
        rw [hg]
        simp only [Bool.false_eq_true, if_false]
        unfold findC
        rw [if_pos rfl]

/-- C4 amended, witness: at the concrete running service, a create-step
fault yields no instance and status `"unknown"`; a start-step fault yields
status `"created"`. -/
theorem C4_update_container_steps_and_failure_states_witness :
    (lookupA (update_container fCreate stRun "a" ⟨"img2"⟩).st.registry "a"
      = none ∧
     (get_container_status noFaults
       (update_container fCreate stRun "a" ⟨"img2"⟩).st "a").1 = "unknown") ∧
    (lookupA (update_container fStart stRun "a" ⟨"img2"⟩).st.registry "a"
      = some ⟨"homie_a", "created"⟩ ∧
     (get_container_status noFaults
       (update_container fStart stRun "a" ⟨"img2"⟩).st "a").1 = "created") := by
  constructor
  · exact (C4_update_container_steps_and_failure_states fCreate noFaults stRun
      "a" ⟨"img2"⟩ (by decide) (by decide)).2.1 (by decide)
  · have hm := (C4_update_container_steps_and_failure_states fStart noFaults
      stRun "a" ⟨"img2"⟩ (by decide) (by decide)).2.2 (by decide) (by decide)
      (by decide) (by
        intro h hl
        unfold stRun lookupA at hl
        split at hl
        · cases hl
          rename_i hs
          rw [← hs]
          rfl
        · cases hl)
    exact ⟨hm.1, hm.2⟩

/-! ### Claim C5 -/

theorem overall_healthy_iff (hm : List (String × HealthCheck)) :
    overall_healthy hm = true ↔
      (totalCount hm = 0 ∨ 4 * totalCount hm ≤ 5 * healthyCount hm) := by
  unfold overall_healthy
  rcases Nat.eq_zero_or_pos (totalCount hm) with h0 | hpos
  · simp [h0]
  · have hne : (totalCount hm == 0) = false := by
      simp [Nat.pos_iff_ne_zero.mp hpos]
    rw [hne]
    simp only [Bool.false_or, decide_eq_true_eq]
    have ht : (0 : ℚ) < (totalCount hm : ℚ) := by exact_mod_cast hpos
    rw [ge_iff_le, div_le_div_iff₀ (by norm_num) ht]
    constructor
    · intro hle
      right
      have h2 : (8 * totalCount hm : ℕ) ≤ healthyCount hm * 10 := by
        exact_mod_cast hle
      omega
    · intro hor
      rcases hor with h0' | hle
      · omega
      · have h2 : (8 * totalCount hm : ℕ) ≤ healthyCount hm * 10 := by omega
        exact_mod_cast h2

/-- C5: the aggregate `healthy` flag is true iff there are zero known
services or the healthy fraction is at least 0.8 (equivalently, over the
integers, `4 * total ≤ 5 * healthy`); the 0.8 boundary is inclusive — with
8 healthy among 10 verdicts the aggregate is healthy, with 7 among 10 it is
not. -/
theorem C5_overall_health_threshold :
    (∀ hm, overall_healthy hm = true ↔
      (totalCount hm = 0 ∨ 4 * totalCount hm ≤ 5 * healthyCount hm)) ∧
    healthyCount (hmOf 8 2) = 8 ∧ totalCount (hmOf 8 2) = 10 ∧
    overall_healthy (hmOf 8 2) = true ∧
    healthyCount (hmOf 7 3) = 7 ∧ totalCount (hmOf 7 3) = 10 ∧
    overall_healthy (hmOf 7 3) = false := by
  refine ⟨overall_healthy_iff, by decide, by decide,
    (overall_healthy_iff (hmOf 8 2)).mpr (Or.inr (by decide)),
    by decide, by decide, ?_⟩
  cases hov : overall_healthy (hmOf 7 3)
  · rfl
  · exact absurd ((overall_healthy_iff (hmOf 7 3)).mp hov) (by decide)

/-! ### Claim C6 -/

/-- C7 counterexample.  When the bound action raises, the `except` block of
`_task_wrapper` only logs: the `task.next_run = task.job.next_run_time`
refresh after the action is **skipped** (here `next_run` stays at its old
value 100 instead of the engine's computed 200), so the `lastRun`/`nextRun`
bookkeeping is not unconditional as claimed — only `lastRun`, set before
the action, is. -/
theorem C7_counterexample_next_run_not_refreshed_on_failure :
    (task_wrapper 50 (some 200) true tRec0).last_run = some 50 ∧
    (task_wrapper 50 (some 200) true tRec0).next_run = some 100 ∧
    tRec0.next_run = some 100 ∧
    (task_wrapper 50 (some 200) false tRec0).next_run = some 200 := by
  decide

/-- C7 amended: each firing sets `lastRun = now` before invoking the bound
action, and this survives whether or not the action raises; `nextRun` is
refreshed from the engine's computed next-fire time only when the action
completes without raising (on a raise it is left unchanged); a firing never
adds or removes a task-map entry, so an action's failure never deregisters
the task. -/
theorem C7_firing_bookkeeping (tasks : List (String × TaskRec))
    (tid : String) (now : Int) (en : Option Int) (raises : Bool)
    (t : TaskRec) (hreg : lookupA tasks tid = some t) :
    lookupA (fire_task tasks tid now en raises) tid =
      some (task_wrapper now en raises t) ∧
    (task_wrapper now en raises t).last_run = some now ∧
    (raises = false → t.trigger.isSome = true →
      (task_wrapper now en raises t).next_run = en) ∧
    (raises = true → (task_wrapper now en raises t).next_run = t.next_run) ∧
    (∀ tid', (lookupA (fire_task tasks tid now en raises) tid').isSome =
      (lookupA tasks tid').isSome) := by
  refine ⟨?_, ?_, ?_, ?_, ?_⟩
  · unfold fire_task
    rw [hreg]
    exact lookupA_setA_self tasks tid _
  · unfold task_wrapper
    split
    · rfl
    · split <;> rfl
  · intro h1 h2
    simp [task_wrapper, h1, h2]
  · intro h1
    simp [task_wrapper, h1]
  · intro tid'
    by_cases htid : tid' = tid
    · rw [htid]
      unfold fire_task
      rw [hreg, lookupA_setA_self tasks tid _]
      rfl
    · unfold fire_task
      rw [hreg, lookupA_setA_ne tasks tid tid' _ htid]

/-- C7 amended, witness: firing the concrete registered task with a raising
action keeps `next_run` at 100 while setting `last_run`, and the task stays
registered. -/
theorem C7_firing_bookkeeping_witness :
    lookupA (fire_task [("t1", tRec0)] "t1" 50 (some 200) true) "t1" =
      some (task_wrapper 50 (some 200) true tRec0) ∧
    (task_wrapper 50 (some 200) true tRec0).last_run = some 50 ∧
    (task_wrapper 50 (some 200) true tRec0).next_run = tRec0.next_run ∧
    (lookupA (fire_task [("t1", tRec0)] "t1" 50 (some 200) true) "t1").isSome
      = (lookupA [("t1", tRec0)] "t1").isSome := by
  have hm := C7_firing_bookkeeping [("t1", tRec0)] "t1" 50 (some 200) true
    tRec0 (by decide)
  exact ⟨hm.1, hm.2.1, hm.2.2.2.1 rfl, hm.2.2.2.2 "t1"⟩

/-! ### Claim C8 -/

/-- C8: the verdict classification follows the if/elif chain of
`_check_container_health` in order — `running` → healthy, `restarting` →
warning, `stopped`/`exited` → unhealthy, then an entry carrying an error
field → error, anything else → unknown; and storing the verdict overwrites
the map entry for that service only, preserving key uniqueness (exactly one
current verdict per known service). -/
theorem C8_health_classification (info : ContainerInfo)
    (hm : List (String × HealthCheck)) (now : Int) (s s' : String) :
    (info.status = "running" → (classifyHealth info).1 = "healthy") ∧
    (info.status = "restarting" → (classifyHealth info).1 = "warning") ∧
    ((info.status = "stopped" ∨ info.status = "exited") →
      (classifyHealth info).1 = "unhealthy") ∧
    (info.status ≠ "running" → info.status ≠ "restarting" →
      info.status ≠ "stopped" → info.status ≠ "exited" →
      info.error.isSome = true → (classifyHealth info).1 = "error") ∧
    (info.status ≠ "running" → info.status ≠ "restarting" →
      info.status ≠ "stopped" → info.status ≠ "exited" →
      info.error = none → (classifyHealth info).1 = "unknown") ∧
    (lookupA (check_container_health hm now s info) s =
      some ⟨(classifyHealth info).1, (classifyHealth info).2, now⟩) ∧
    (s' ≠ s → lookupA (check_container_health hm now s info) s' =
      lookupA hm s') ∧
    (keysNodup hm → keysNodup (check_container_health hm now s info)) := by
  refine ⟨?_, ?_, ?_, ?_, ?_, ?_, ?_, ?_⟩
  · intro h
    simp [classifyHealth, h]
  · intro h
    simp [classifyHealth, h]
  · rintro (h | h) <;> simp [classifyHealth, h]
  · intro h1 h2 h3 h4 h5
    simp [classifyHealth, h1, h2, h3, h4, h5]
  · intro h1 h2 h3 h4 h5
    simp [classifyHealth, h1, h2, h3, h4, h5]
  · exact lookupA_setA_self hm s _
  · intro hne
    exact lookupA_setA_ne hm s s' _ hne
  · intro hnd
    exact keysNodup_setA hm s _ hnd

/-- C8 witness: each classification case at a concrete entry, the stored
verdict, and preserved key uniqueness. -/
theorem C8_health_classification_witness :
    (classifyHealth ⟨"running", none⟩).1 = "healthy" ∧
    (classifyHealth ⟨"restarting", none⟩).1 = "warning" ∧
    (classifyHealth ⟨"exited", none⟩).1 = "unhealthy" ∧
    (classifyHealth ⟨"error", some "gone"⟩).1 = "error" ∧
    (classifyHealth ⟨"paused", none⟩).1 = "unknown" ∧
    lookupA (check_container_health [] 5 "a" ⟨"running", none⟩) "a" =
      some ⟨"healthy", "Container is running normally", 5⟩ ∧
    keysNodup (check_container_health [] 5 "a" ⟨"running", none⟩) := by
  refine ⟨(C8_health_classification ⟨"running", none⟩ [] 5 "a" "b").1 rfl,
    (C8_health_classification ⟨"restarting", none⟩ [] 5 "a" "b").2.1 rfl,
    (C8_health_classification ⟨"exited", none⟩ [] 5 "a" "b").2.2.1
      (Or.inr rfl),
    (C8_health_classification ⟨"error", some "gone"⟩ [] 5 "a" "b").2.2.2.1
      (by decide) (by decide) (by decide) (by decide) rfl,
    (C8_health_classification ⟨"paused", none⟩ [] 5 "a" "b").2.2.2.2.1
      (by decide) (by decide) (by decide) (by decide) rfl,
    (C8_health_classification ⟨"running", none⟩ [] 5 "a" "b").2.2.2.2.2.1,
    (C8_health_classification ⟨"running", none⟩ [] 5 "a" "b").2.2.2.2.2.2.2
      (by simp [keysNodup])⟩

/-! ### Claim C9 -/

/-- C9 counterexample.  For an unknown name `get_container_stats` does
return the null result `None`, but `get_container_logs` returns the
sentinel *string* `"Container not found"` — a present, non-null payload, so
the claim that both calls "return a null result" fails on the logs call. -/
theorem C9_counterexample_logs_sentinel_not_null :
    get_container_logs noFaults stEmpty "x" 100 = "Container not found" ∧
    get_container_logs_specd stEmpty "x" = none ∧
    some (get_container_logs noFaults stEmpty "x" 100) ≠
      get_container_logs_specd stEmpty "x" := by
  decide

/-- C9 amended: for every name not present in the registry,
`getContainerStatus` returns the `unknown` status and `getContainerStats`
returns a null result, while `getContainerLogs` returns the fixed sentinel
string `"Container not found"` (not a null result); all three return
normally for every fault configuration — the unknown-name path performs no
runtime call at all, and every runtime exception elsewhere is caught. -/
theorem C9_unknown_name_results (f : Faults) (st : CMState) (s : String)
    (tail : Nat) (h : lookupA st.registry s = none) :
    (get_container_status f st s).1 = "unknown" ∧
    get_container_logs f st s tail = "Container not found" ∧
    get_container_stats f st s = none := by
  refine ⟨get_container_status_of_absent f st s h, ?_, ?_⟩
  · unfold get_container_logs
    rw [h]
  · unfold get_container_stats
    rw [h]

/-- C9 amended, witness: the empty registry with an arbitrary fault
configuration. -/
theorem C9_unknown_name_results_witness :
    (get_container_status ⟨true, true, true, true, true, true, true, true, true⟩
      stEmpty "x").1 = "unknown" ∧
    get_container_logs ⟨true, true, true, true, true, true, true, true, true⟩
      stEmpty "x" 7 = "Container not found" ∧
    get_container_stats ⟨true, true, true, true, true, true, true, true, true⟩
      stEmpty "x" = none :=
  C9_unknown_name_results _ stEmpty "x" 7 (by decide)

/-! ### Claim C10 -/

/-- C10: a removal that fails (lookup miss, or a raising stop is ignored
but a raising/refused `container.remove`) returns failure with the registry
entry left exactly as it was — `del self._containers[service_name]` runs
strictly after `container.remove` returned; and on success the entry is
deleted together with the runtime container. -/
theorem C10_remove_failure_preserves_registry (f : Faults) (st : CMState)
    (s : String) (force : Bool) :
    ((remove_container f st s force).ok = false →
      (remove_container f st s force).st.registry = st.registry) ∧
    (∀ h, lookupA st.registry s = some h →
      (remove_container f st s force).ok = true →
      lookupA (remove_container f st s force).st.registry s = none ∧
      findC (remove_container f st s force).st.runtime h.cname = none) := by
  exact ⟨remove_container_fail_registry f st s force,
    fun h hreg hok => remove_container_ok_st f st s force h hreg hok⟩

/-- C10 witness: with the runtime removal call faulted the registry entry
for `a` survives untouched; with no fault the successful removal deletes
both the entry and the runtime container. -/
theorem C10_witness :
    (remove_container ⟨false, true, false, false, false, false, false, false, false⟩
      stRun "a" false).st.registry = stRun.registry ∧
    lookupA (remove_container noFaults stRun "a" false).st.registry "a" = none := by
  constructor
  · exact (C10_remove_failure_preserves_registry
      ⟨false, true, false, false, false, false, false, false, false⟩
      stRun "a" false).1 (by decide)
  · exact ((C10_remove_failure_preserves_registry noFaults stRun "a" false).2
      ⟨"homie_a", "running"⟩ (by decide) (by decide)).1

end Orchestrator
